import Mathlib

/-!
Shallow embedding of the OPC-UA gateway's value distribution and
persistence core (src/main.py, src/connectors/opcua_connector.py,
src/connectors/db_connector.py, src/connectors/unity_connector.py).

Python dictionaries are modelled as insertion-ordered association lists,
machine clock reads (datetime.now()) as an incrementing Nat counter held in
the connector state, numeric payloads as rationals, and exception-based
control flow as Except values with explicit catch sites mirroring the
source's try/except blocks.
-/

namespace Gateway

/-- Model of a Python dict lookup: the value of the first entry whose key
matches (real dicts never hold a duplicate key). -/
def dictGet {α : Type} (m : List (String × α)) (k : String) : Option α :=
  (m.find? (fun p => p.1 == k)).map (fun p => p.2)

/-- Model of a Python dict assignment `m[k] = v`: an existing key is updated
in place (insertion order preserved), a new key is appended at the end. -/
def dictSet {α : Type} : List (String × α) → String → α → List (String × α)
  | [], k, v => [(k, v)]
  | p :: t, k, v => if p.1 == k then (k, v) :: t else p :: dictSet t k v

/-- The keys of the association list are pairwise distinct (true of every
list that models a Python dict). -/
def keysNodup {α : Type} (m : List (String × α)) : Prop :=
  (m.map Prod.fst).Nodup

instance {α : Type} (m : List (String × α)) : Decidable (keysNodup m) := by
  unfold keysNodup; infer_instance

theorem dictGet_dictSet_self {α : Type} (m : List (String × α)) (k : String)
    (v : α) : dictGet (dictSet m k v) k = some v := by
  induction m with
  | nil => simp [dictGet, dictSet]
  | cons p t ih =>
    by_cases hp : p.1 = k
    · simp [dictGet, dictSet, hp]
    · have hp' : (p.1 == k) = false := by simp [hp]
      simp [dictGet, dictSet, hp', dictGet] at ih ⊢
      exact ih

theorem dictGet_dictSet_ne {α : Type} (m : List (String × α)) (k k' : String)
    (v : α) (hne : k' ≠ k) : dictGet (dictSet m k v) k' = dictGet m k' := by
  have hk : ((k : String) == k') = false := by
    simp only [beq_eq_false_iff_ne, ne_eq]
    intro h; exact hne h.symm
  induction m with
  | nil => simp [dictGet, dictSet, hk]
  | cons p t ih =>
    by_cases hp : p.1 = k
    · have hp' : (p.1 == k') = false := by
        simp only [beq_eq_false_iff_ne, ne_eq]
        intro h; exact hne (hp ▸ h).symm
      simp [dictGet, dictSet, hp, hp', hk]
    · have hp2 : (p.1 == k) = false := by simp [hp]
      by_cases hq : p.1 = k'
      · have hq' : (p.1 == k') = true := beq_iff_eq.mpr hq
        simp only [dictSet, hp2, Bool.false_eq_true, if_false, dictGet,
          List.find?_cons, hq']
      · have hq' : (p.1 == k') = false := by simp [hq]
        simp only [dictGet, dictSet, hp2, Bool.false_eq_true, if_false,
          List.find?_cons, hq'] at ih ⊢
        exact ih

theorem mem_keys_dictSet {α : Type} (m : List (String × α)) (k a : String)
    (v : α) :
    a ∈ (dictSet m k v).map Prod.fst ↔ a = k ∨ a ∈ m.map Prod.fst := by
  induction m with
  | nil => simp [dictSet]
  | cons p t ih =>
    by_cases hp : p.1 = k
    · simp only [dictSet, hp, beq_self_eq_true, if_true, List.map_cons,
        List.mem_cons]
      constructor
      · rintro (h | h)
        · exact Or.inl h
        · exact Or.inr (Or.inr h)
      · rintro (h | h | h)
        · exact Or.inl h
        · exact Or.inl (hp ▸ h)
        · exact Or.inr h
    · have hp' : (p.1 == k) = false := by simp [hp]
      simp only [dictSet, hp', Bool.false_eq_true, if_false, List.map_cons,
        List.mem_cons, ih]
      tauto

theorem keysNodup_dictSet {α : Type} (m : List (String × α)) (k : String)
    (v : α) (h : keysNodup m) : keysNodup (dictSet m k v) := by
  unfold keysNodup at h ⊢
  induction m with
  | nil => simp [dictSet]
  | cons p t ih =>
    simp only [List.map_cons, List.nodup_cons] at h
    by_cases hp : p.1 = k
    · simp only [dictSet, hp, beq_self_eq_true, if_true, List.map_cons,
        List.nodup_cons]
      exact ⟨hp ▸ h.1, h.2⟩
    · have hp' : (p.1 == k) = false := by simp [hp]
      simp only [dictSet, hp', Bool.false_eq_true, if_false, List.map_cons,
        List.nodup_cons]
      refine ⟨fun hmem => ?_, ih h.2⟩
      rcases (mem_keys_dictSet t k p.1 v).mp hmem with heq | hmem2
      · exact hp heq
      · exact h.1 hmem2

theorem dictGet_isSome_iff_mem_keys {α : Type} (m : List (String × α))
    (k : String) : (dictGet m k).isSome ↔ k ∈ m.map Prod.fst := by
  induction m with
  | nil => simp [dictGet]
  | cons p t ih =>
    by_cases hp : p.1 = k
    · simp [dictGet, hp]
    · have hp' : (p.1 == k) = false := by simp [hp]
      simp only [dictGet, List.find?_cons, hp', List.map_cons, List.mem_cons]
      rw [dictGet] at ih
      rw [ih]
      constructor
      · exact fun h => Or.inr h
      · rintro (h | h)
        · exact absurd h.symm hp
        · exact h

/-! ### safe_float (src/connectors/opcua_connector.py lines 14-18)

The raw payload handed to `safe_float` by the protocol client is a Python
object: a number, a string, `None`, or some other non-coercible object.
`float(value)` raises `ValueError` on an unparseable string and `TypeError`
on `None` or a non-coercible object; `round(x, 2)` is banker's rounding to
two decimals. Numbers are modelled as rationals; string parsing models
Python `float()` on plain decimal literals (exponents, infinities and NaN
are outside the model). -/

/-- A raw payload value as delivered by the protocol client. -/
inductive RawValue : Type
  | num (q : Rat)
  | str (s : String)
  | noneV
  | other
deriving DecidableEq, Repr

/-- The exceptions `float()` can raise that `safe_float` catches. -/
inductive PyErr : Type
  | valueError
  | typeError
deriving DecidableEq, Repr

/-- Split a character list at the first dot, mirroring the shape of a
decimal literal. -/
def splitDot : List Char → List Char × Option (List Char)
  | [] => ([], none)
  | c :: rest =>
    if c = '.' then ([], some rest)
    else
      let r := splitDot rest
      (c :: r.1, r.2)

/-- Numeric value of a digit list. -/
def digitsVal (l : List Char) : Nat :=
  l.foldl (fun a c => a * 10 + (c.toNat - 48)) 0

/-- Parse an unsigned decimal literal. -/
def parseUnsigned (cs : List Char) : Option Rat :=
  let ip := (splitDot cs).1
  match (splitDot cs).2 with
  | none =>
    if cs ≠ [] ∧ cs.all Char.isDigit then some (digitsVal cs) else none
  | some fp =>
    if (ip ++ fp) ≠ [] ∧ ip.all Char.isDigit ∧ fp.all Char.isDigit then
      some ((digitsVal ip : Rat) + (digitsVal fp : Rat) / ((10 : Rat) ^ fp.length))
    else none

/-- Model of Python `float(s)` for a string payload: an optional sign
followed by a plain decimal literal. -/
def parseFloat (s : String) : Option Rat :=
  match s.toList with
  | '-' :: rest => (parseUnsigned rest).map (fun q => -q)
  | '+' :: rest => parseUnsigned rest
  | cs => parseUnsigned cs

/-- Model of Python `float(value)`: numbers pass through, strings are
parsed (ValueError on failure), `None` and non-coercible objects raise
TypeError. -/
def pyFloat : RawValue → Except PyErr Rat
  | .num q => .ok q
  | .str s =>
    match parseFloat s with
    | some q => .ok q
    | none => .error .valueError
  | .noneV => .error .typeError
  | .other => .error .typeError

/-- Python `round` ties-to-even on an exact rational. -/
def roundHalfEven (q : Rat) : Int :=
  let n := ⌊q⌋
  if q - n < 1 / 2 then n
  else if (1 : Rat) / 2 < q - n then n + 1
  else if n % 2 = 0 then n else n + 1

/-- `round(x, 2)`: banker's rounding to two decimals. -/
def round2 (q : Rat) : Rat := (roundHalfEven (q * 100) : Rat) / 100

/-- `safe_float` from the source: `float` then `round(_, 2)` inside a
try/except catching exactly ValueError and TypeError, returning None on
either. -/
def safe_float (value : RawValue) : Option Rat :=
  match pyFloat value with
  | .ok q => some (round2 q)
  | .error .valueError => none
  | .error .typeError => none

/-! ### OPC-UA connector state (src/connectors/opcua_connector.py) -/

/-- One entry of `nodes_to_monitor`: the dict
`{'id': node_id, 'name': node_name, 'unit': node_unit}` built in
`OpcUaConnector.__init__`. -/
structure NodeInfo : Type where
  id : String
  name : String
  unit : String
deriving DecidableEq, Repr

/-- A cached value entry: the dict
`{"value": ..., "unit": ..., "timestamp": ...}` stored into
`latest_values` / `current_values`. Timestamps are machine clock readings
modelled as naturals. -/
structure Sample : Type where
  value : Option Rat
  unit : String
  timestamp : Nat
deriving DecidableEq, Repr

/-- A registered value callback: a listener acting on an external world of
type `σ`, which may raise (modelled as `Except Unit`). -/
structure Cb (σ : Type) : Type where
  run : String → Option Rat → String → Nat → σ → Except Unit σ

/-- The part of `OpcUaConnector` state the claims are about, with the
clock counter supplying successive `datetime.now()` readings. -/
structure OpcState (σ : Type) : Type where
  nodes_to_monitor : List NodeInfo
  latest_values : List (String × Sample)
  value_callbacks : List (Cb σ)
  clock : Nat

/-- `add_value_callback`: appends a listener. -/
def add_value_callback {σ : Type} (st : OpcState σ) (cb : Cb σ) : OpcState σ :=
  { st with value_callbacks := st.value_callbacks ++ [cb] }

/-- The callback loop body of `_notify_callbacks`: each callback is invoked
inside its own try/except, so a failure leaves the external world unchanged
and the loop continues with the next callback. -/
def runCbs {σ : Type} (cbs : List (Cb σ)) (n : String) (v : Option Rat)
    (u : String) (t : Nat) (e : σ) : σ :=
  cbs.foldl (fun e cb =>
    match cb.run n v u t e with
    | .ok e2 => e2
    | .error _ => e) e

/-- `_notify_callbacks`: takes one fresh clock reading, then invokes every
registered callback with the same `(name, value, unit, timestamp)` tuple.
The tuple delivered to the listeners is returned as an observation. -/
def notify_callbacks {σ : Type} (st : OpcState σ) (e : σ) (n : String)
    (v : Option Rat) (u : String) :
    OpcState σ × σ × (String × Option Rat × String × Nat) :=
  let t := st.clock
  ({ st with clock := st.clock + 1 },
   runCbs st.value_callbacks n v u t e,
   (n, v, u, t))

/-- `SubHandler.datachange_notification`: resolve the node id against
`nodes_to_monitor`; on a hit, normalize via `safe_float`, store the whole
entry into `latest_values` with a fresh clock reading, then fan out through
`_notify_callbacks`. Unresolved node ids are logged and dropped. The third
component observes the tuple delivered to listeners (`none` when the event
was dropped). -/
def datachange_notification {σ : Type} (st : OpcState σ) (e : σ)
    (nodeId : String) (raw : RawValue) :
    OpcState σ × σ × Option (String × Option Rat × String × Nat) :=
  match st.nodes_to_monitor.find? (fun info => info.id == nodeId) with
  | none => (st, e, none)
  | some info =>
    let v := safe_float raw
    let st1 := { st with
      latest_values := dictSet st.latest_values info.name
        ⟨v, info.unit, st.clock⟩,
      clock := st.clock + 1 }
    let r := notify_callbacks st1 e info.name v info.unit
    (r.1, r.2.1, some r.2.2)

/-! ### Tag registry loading (src/connectors/opcua_connector.py lines 38-44)

`OpcUaConnector.__init__` scans the MONITORING section with
`while f'node{i}_id' in monitoring_section:` reading
`monitoring_section[f'node{i}_id']`, `monitoring_section[f'node{i}_name']`
(a missing name raises KeyError) and
`monitoring_section.get(f'node{i}_unit', '')`. The section is a finite
key-value table; the loop stops at the first index whose id key is absent.
The loop runs at most `entries.length + 1` times because each earlier
index contributes a distinct present id key, so that bound serves as the
structural fuel of the embedding. -/

/-- The key `node{i}{suffix}` of the MONITORING section. -/
def nodeKey (i : Nat) (suffix : String) : String :=
  "node" ++ toString i ++ suffix

/-- `configparser` section lookup. -/
def secGet (entries : List (String × String)) (k : String) : Option String :=
  dictGet entries k

/-- The body of the `while f'node{i}_id' in monitoring_section:` loop.
A missing `node{i}_id` terminates the scan with the tags collected so far;
a missing `node{i}_name` raises KeyError (modelled as `.error key`). -/
def loadLoop (entries : List (String × String)) :
    Nat → Nat → Except String (List NodeInfo)
  | 0, _ => .ok []
  | fuel + 1, i =>
    match secGet entries (nodeKey i "_id") with
    | none => .ok []
    | some nid =>
      match secGet entries (nodeKey i "_name") with
      | none => .error (nodeKey i "_name")
      | some nm =>
        match loadLoop entries fuel (i + 1) with
        | .ok rest =>
          .ok (⟨nid, nm, (secGet entries (nodeKey i "_unit")).getD ""⟩ :: rest)
        | .error e => .error e

/-- Loading of `nodes_to_monitor` from the MONITORING section. -/
def loadTags (entries : List (String × String)) :
    Except String (List NodeInfo) :=
  loadLoop entries (entries.length + 1) 1

/-- The tag the loop body builds at index `j` when its keys are present. -/
def tagAt (entries : List (String × String)) (j : Nat) : NodeInfo :=
  ⟨(secGet entries (nodeKey j "_id")).getD "",
   (secGet entries (nodeKey j "_name")).getD "",
   (secGet entries (nodeKey j "_unit")).getD ""⟩

/-! ### Database connector (src/connectors/db_connector.py)

The storage backend (MariaDB) is modelled as a `World`: whether the
DATABASE section enables logging, whether a fresh connect succeeds,
whether executing the INSERT raises `mariadb.Error`, whether the mapping
query raises, and the content of the `tagnames` table. The connector's
mutable attributes form `DbState`; `insertedRows` records every issued
insert (the implicit `timestamp NOW()` column omitted) and `cycleCount`
counts persistence cycles the worker has run. -/

namespace DbConnector

/-- The storage backend and configuration environment. -/
structure World : Type where
  enabled : Bool
  dbUp : Bool
  insertFails : Bool
  mappingQueryFails : Bool
  tagTable : List (String × String)
deriving DecidableEq, Repr

/-- Mutable attributes of `DbConnector`. -/
structure State : Type where
  connected : Bool
  current_values : List (String × Sample)
  opc_to_db_mapping : List (String × String)
  shutdown_event : Bool
  logging_active : Bool
  insertedRows : List (List (String × Option Rat))
  cycleCount : Nat
deriving DecidableEq, Repr

/-- `DbConnector.update_value`: whole-entry replace of the tag's cached
sample. -/
def update_value (s : State) (tag : String) (v : Option Rat) (u : String)
    (t : Nat) : State :=
  { s with current_values := dictSet s.current_values tag ⟨v, u, t⟩ }

/-- `DbConnector._load_tag_mappings`: `SELECT opc_tag_name, db_field_name
FROM tagnames`; on `mariadb.Error` the mapping is set to `{}`. -/
def load_tag_mappings (w : World) : List (String × String) :=
  if w.mappingQueryFails then [] else w.tagTable

/-- `DbConnector._start_logging_thread`: clears the shutdown event and
starts the worker (only when logging is enabled in the config). -/
def start_logging_thread (w : World) (s : State) : State :=
  if w.enabled then
    { s with shutdown_event := false, logging_active := true }
  else s

/-- `DbConnector.connect`: refuses when disabled; on a successful fresh
connect, loads the tag mappings and then starts the logging thread; a
`mariadb.Error` leaves `connected = False`. -/
def connect (w : World) (s : State) : Bool × State :=
  if ¬ w.enabled then (false, s)
  else if ¬ w.dbUp then (false, { s with connected := false })
  else
    (true, start_logging_thread w
      { s with connected := true, opc_to_db_mapping := load_tag_mappings w })

/-- Closing the connection at the end of `DbConnector.disconnect`. -/
def closeConn (s : State) : State := { s with connected := false }

/-- `DbConnector.disconnect`. When the logging thread is active it sets the
shutdown event and joins the logging thread; called from the logging worker
itself (`fromWorker = true`, the `_log_current_values → _try_reconnect`
path) the join of the current thread raises RuntimeError, so the
connection-closing part is never reached. The Bool records whether the
call raised. -/
def disconnect (fromWorker : Bool) (s : State) : Bool × State :=
  if s.logging_active then
    if fromWorker then
      (true, { s with shutdown_event := true })
    else
      (false, closeConn
        { s with shutdown_event := true, logging_active := false })
  else (false, closeConn s)

/-- `DbConnector._try_reconnect`: disconnect, brief pause, fresh connect;
any exception is caught and reported as failure. -/
def try_reconnect (w : World) (fromWorker : Bool) (s : State) :
    Bool × State :=
  match disconnect fromWorker s with
  | (true, s1) => (false, s1)
  | (false, s1) => connect w s1

/-- One iteration of the INSERT-building loop of `_log_current_values`:
a cached tag that has a mapping appends its column name and its raw
cached value — absent (None) values included. -/
def insertFold (m : List (String × String))
    (acc : List String × List (Option Rat)) (p : String × Sample) :
    List String × List (Option Rat) :=
  match dictGet m p.1 with
  | some fld => (acc.1 ++ [fld], acc.2 ++ [p.2.value])
  | none => acc

/-- The dynamic INSERT construction of `_log_current_values`: starting
from `field_names = ["timestamp"]` and `values = []`. -/
def buildInsert (s : State) : List String × List (Option Rat) :=
  s.current_values.foldl (insertFold s.opc_to_db_mapping) (["timestamp"], [])

/-- The projection of a cache through a mapping: the `(column, value)`
pairs an INSERT carries beyond the timestamp column. -/
def projPairs (m : List (String × String)) (l : List (String × Sample)) :
    List (String × Option Rat) :=
  l.filterMap (fun p => (dictGet m p.1).map (fun fld => (fld, p.2.value)))

/-- The projection `_log_current_values` computes for the current state. -/
def projRow (s : State) : List (String × Option Rat) :=
  projPairs s.opc_to_db_mapping s.current_values

/-- `DbConnector._log_current_values`: skip when not connected or the
cache is empty; skip when no cached tag has a mapping
(`len(field_names) <= 1`); otherwise execute the INSERT; a `mariadb.Error`
during the insert is caught and triggers `_try_reconnect` (from the
worker thread). -/
def log_current_values (w : World) (s : State) : State :=
  if ¬ s.connected ∨ s.current_values.isEmpty then s
  else
    let fv := buildInsert s
    if fv.1.length ≤ 1 then s
    else if w.insertFails then (try_reconnect w true s).2
    else { s with insertedRows := s.insertedRows ++ [fv.1.tail.zip fv.2] }

/-- One tick of `_logging_worker`'s loop body: when connected with a
non-empty cache, run one persistence cycle. -/
def logging_worker_step (w : World) (s : State) : State :=
  if s.connected && !s.current_values.isEmpty then
    log_current_values w { s with cycleCount := s.cycleCount + 1 }
  else s

/-- `_logging_worker`: loop while the shutdown event is not set, running
one tick per scheduled interval; `n` bounds the number of ticks
observed. -/
def logging_worker : Nat → World → State → State
  | 0, _, s => s
  | n + 1, w, s =>
    if s.shutdown_event then s
    else logging_worker n w (logging_worker_step w s)

/-- Folding a sequence of updates for one tag through `update_value`. -/
def processSeq (s : State) (tag : String)
    (ups : List (Option Rat × String × Nat)) : State :=
  ups.foldl (fun s u => update_value s tag u.1 u.2.1 u.2.2) s

end DbConnector

/-! ### History queries (src/connectors/unity_connector.py lines 88-110 and
src/connectors/db_connector.py lines 216-255)

The `process_data` table is a list of rows, each a timestamp plus the
per-column values; the `ORDER BY timestamp` of `get_field_history`'s query
is modelled by an insertion sort, `LIMIT` by `take`, and a `mariadb.Error`
during the query by the `queryFails` flag (caught: the function returns
`[]`). -/

namespace Unity

/-- One row of the `process_data` table. -/
structure Row : Type where
  ts : Nat
  cols : List (String × Option Rat)
deriving DecidableEq, Repr

/-- The value of a column in a row (`NULL` when absent). -/
def rowGet (r : Row) (field : String) : Option Rat :=
  (dictGet r.cols field).getD none

/-- The world a history request runs against. -/
structure HistWorld : Type where
  dbPresent : Bool
  connected : Bool
  mapping : List (String × String)
  current_values : List (String × Sample)
  table : List Row
  now : Nat
  queryFails : Bool
deriving DecidableEq, Repr

/-- Insert a `(timestamp, value)` pair into a list sorted by timestamp. -/
def insertSorted (x : Nat × Rat) : List (Nat × Rat) → List (Nat × Rat)
  | [] => [x]
  | y :: ys => if x.1 ≤ y.1 then x :: y :: ys else y :: insertSorted x ys

/-- `ORDER BY timestamp` of the range query. -/
def sortRows (l : List (Nat × Rat)) : List (Nat × Rat) :=
  l.foldr insertSorted []

/-- `DbConnector.get_field_history`: `[]` when not connected; otherwise the
rows of the last `hours` hours whose column is non-NULL, ordered by
timestamp, limited to `limit`; a `mariadb.Error` is caught and yields
`[]`. -/
def get_field_history (w : HistWorld) (field : String) (hours limit : Nat) :
    List (Nat × Rat) :=
  if ¬ w.connected then []
  else if w.queryFails then []
  else
    (sortRows ((w.table.filter
        (fun r => decide (w.now - hours * 3600 < r.ts)
          && (rowGet r field).isSome)).filterMap
      (fun r => (rowGet r field).map (fun v => (r.ts, v))))).take limit

/-- `DbConnector.get_tag_history`: resolve the tag through
`opc_to_db_mapping` (`[]` when unmapped), fetch the field history, and
attach the unit found in `current_values`. -/
def get_tag_history (w : HistWorld) (tag : String) (hours limit : Nat) :
    List (Rat × String × Nat) :=
  match dictGet w.mapping tag with
  | none => []
  | some field =>
    let u := ((dictGet w.current_values tag).map Sample.unit).getD ""
    (get_field_history w field hours limit).map (fun p => (p.2, u, p.1))

/-- The structured outcome of the `/api/history/<name>` route. -/
inductive HistResult : Type
  | unavailable
  | notFound
  | ok (rows : List (Rat × String × Nat))
deriving DecidableEq, Repr

/-- The `/api/history/<name>` route handler `get_history`: 503 when the
database connector is absent or not connected, 404 when the tag history
comes back empty, otherwise the rows. -/
def get_history (w : HistWorld) (name : String) (hours : Nat) : HistResult :=
  if ¬ w.dbPresent ∨ ¬ w.connected then .unavailable
  else
    let h := get_tag_history w name hours 1000
    if h.isEmpty then .notFound else .ok h

end Unity

/-! ### Startup sequence (src/main.py lines 91-124,
src/connectors/opcua_connector.py lines 147-181,
src/connectors/unity_connector.py lines 112-132)

`main` connects the protocol client, runs `subscribe_to_nodes` (which
seeds initial values through the normalize-cache-notify path), then, when
the database connects, registers `db_update_callback`, then `UnityConnector
.start` registers `on_value_update`. The listener world `GwWorld` holds
the Unity cache and the database connector state; initial node reads are
modelled as succeeding with the payload `readVal nodeId`. -/

/-- The external world the registered listeners act on. -/
structure GwWorld : Type where
  unity_latest : List (String × Sample)
  db : DbConnector.State

/-- `main.db_update_callback`: forwards the update into the database
connector's cache when it is connected. -/
def db_update_callback : Cb GwWorld :=
  ⟨fun n v u t w =>
    .ok (if w.db.connected then
      { w with db := DbConnector.update_value w.db n v u t }
    else w)⟩

/-- `UnityConnector.on_value_update`: whole-entry replace of the Unity
cache entry. -/
def on_value_update : Cb GwWorld :=
  ⟨fun n v u t w =>
    .ok { w with unity_latest := dictSet w.unity_latest n ⟨v, u, t⟩ }⟩

/-- One iteration of the seeding loop of `subscribe_to_nodes`: read the
node's current value, normalize it with `safe_float`, store it into
`latest_values` with a fresh clock reading, and push it through
`_notify_callbacks`. -/
def seedStep {σ : Type} (readVal : String → RawValue)
    (acc : OpcState σ × σ) (info : NodeInfo) : OpcState σ × σ :=
  let v := safe_float (readVal info.id)
  let st1 := { acc.1 with
    latest_values := dictSet acc.1.latest_values info.name
      ⟨v, info.unit, acc.1.clock⟩,
    clock := acc.1.clock + 1 }
  let r := notify_callbacks st1 acc.2 info.name v info.unit
  (r.1, r.2.1)

/-- The seeding loop of `subscribe_to_nodes` over the monitored nodes. -/
def seedNodes {σ : Type} (readVal : String → RawValue) (infos : List NodeInfo)
    (st : OpcState σ) (e : σ) : OpcState σ × σ :=
  infos.foldl (seedStep readVal) (st, e)

/-- `OpcUaConnector.subscribe_to_nodes` (the per-node seeding part). -/
def subscribe_to_nodes {σ : Type} (readVal : String → RawValue)
    (st : OpcState σ) (e : σ) : OpcState σ × σ :=
  seedNodes readVal st.nodes_to_monitor st e

/-- The `OpcUaConnector` as `main` builds it: the configured nodes, no
cached values, no callbacks yet. -/
def init_opc (nodes : List NodeInfo) : OpcState GwWorld :=
  { nodes_to_monitor := nodes, latest_values := [],
    value_callbacks := [], clock := 0 }

/-- The listener world at startup: empty Unity cache, empty persistence
cache; `dbc` records whether the database connector connected. -/
def init_world (dbc : Bool) : GwWorld :=
  { unity_latest := [],
    db := { connected := dbc, current_values := [],
            opc_to_db_mapping := [], shutdown_event := false,
            logging_active := dbc, insertedRows := [], cycleCount := 0 } }

/-- The callback list `main` ends up registering, in order: the storage
update callback (only when the database connected), then the Unity
callback. -/
def startup_callbacks (dbc : Bool) : List (Cb GwWorld) :=
  (if dbc then [db_update_callback] else []) ++ [on_value_update]

/-- The startup order of `main`: build the connector (no callbacks),
subscribe and seed, then register `db_update_callback` when the database
connected, then register `on_value_update` from `UnityConnector.start`. -/
def main_startup (nodes : List NodeInfo) (readVal : String → RawValue)
    (dbc : Bool) : OpcState GwWorld × GwWorld :=
  let r := subscribe_to_nodes readVal (init_opc nodes) (init_world dbc)
  let st2 := if dbc then add_value_callback r.1 db_update_callback else r.1
  (add_value_callback st2 on_value_update, r.2)

/-- One live data-change delivery. -/
def evStep {σ : Type} (acc : OpcState σ × σ) (ev : String × RawValue) :
    OpcState σ × σ :=
  let r := datachange_notification acc.1 acc.2 ev.1 ev.2
  (r.1, r.2.1)

/-- Folding live data-change events through
`SubHandler.datachange_notification`. -/
def processEvents {σ : Type} (p : OpcState σ × σ)
    (evs : List (String × RawValue)) : OpcState σ × σ :=
  evs.foldl evStep p

/-- The tag names live events resolve to. -/
def resolvedNames (nodes : List NodeInfo) (evs : List (String × RawValue)) :
    List String :=
  evs.filterMap (fun ev =>
    (nodes.find? (fun info => info.id == ev.1)).map NodeInfo.name)

/-- The `/api/value/<name>` route: the Unity cache entry, 404 (`none`)
when the tag has never been delivered to the Unity listener. -/
def get_value_route (w : GwWorld) (name : String) : Option Sample :=
  dictGet w.unity_latest name

/-! ### Concrete witness fixtures -/

/-- The connector state the C2 witness starts from: one cached entry for
another tag. -/
def c2W_state : DbConnector.State :=
  { connected := true,
    current_values := [("Hum1", ⟨none, "%", 0⟩)],
    opc_to_db_mapping := [], shutdown_event := false,
    logging_active := true, insertedRows := [], cycleCount := 0 }

/-- The listener world of the C3 witness: the list of tuples the
well-behaved listener received. -/
abbrev RecWorld : Type := List (String × Option Rat × String × Nat)

/-- A listener that always raises. -/
def failing_cb : Cb RecWorld := ⟨fun _ _ _ _ _ => Except.error ()⟩

/-- A well-behaved listener that records every tuple it receives. -/
def recording_cb : Cb RecWorld := ⟨fun n v u t l => Except.ok (l ++ [(n, v, u, t)])⟩

/-- The connector state of the C3 witness: one monitored node, the failing
listener registered before the recording one. -/
def c3W_state : OpcState RecWorld :=
  { nodes_to_monitor := [⟨"ns=2;i=5", "Temp1", "C"⟩],
    latest_values := [],
    value_callbacks := [failing_cb, recording_cb],
    clock := 0 }

/-- The state the C1 witness runs a cycle on: one mapped tag with a
present value, one unmapped tag. -/
def c1W_state : DbConnector.State :=
  { connected := true,
    current_values := [("Temp1", ⟨some 5, "C", 0⟩), ("Hum1", ⟨some 7, "%", 0⟩)],
    opc_to_db_mapping := [("Temp1", "temp1")],
    shutdown_event := false, logging_active := true,
    insertedRows := [], cycleCount := 0 }

/-- The backend of the C4 run: logging enabled, the database reachable,
but executing the INSERT raises `mariadb.Error`. -/
def c4_world : DbConnector.World := ⟨true, true, true, false, [("Temp1", "temp1")]⟩

/-- The worker state at the failing tick: connected, one mapped cached
value, shutdown not requested. -/
def c4_state : DbConnector.State :=
  { connected := true,
    current_values := [("Temp1", ⟨some 5, "C", 0⟩)],
    opc_to_db_mapping := [("Temp1", "temp1")],
    shutdown_event := false, logging_active := true,
    insertedRows := [], cycleCount := 0 }

/-- The disconnected world of the C9 witness. -/
def c9U_world : Unity.HistWorld :=
  { dbPresent := false, connected := false, mapping := [],
    current_values := [], table := [], now := 0, queryFails := false }

/-- The connected world of the C9 witness: `Temp1` mapped to a column with
one row in the window, `T2` mapped to a column with no rows. -/
def c9C_world : Unity.HistWorld :=
  { dbPresent := true, connected := true,
    mapping := [("Temp1", "temp1"), ("T2", "t2")],
    current_values := [],
    table := [⟨10, [("temp1", some 5)]⟩],
    now := 0, queryFails := false }

/-! ### Helper lemmas -/

theorem runCbs_nil {σ : Type} (n : String) (v : Option Rat) (u : String)
    (t : Nat) (e : σ) : runCbs [] n v u t e = e := rfl

theorem runCbs_append {σ : Type} (a b : List (Cb σ)) (n : String)
    (v : Option Rat) (u : String) (t : Nat) (e : σ) :
    runCbs (a ++ b) n v u t e = runCbs b n v u t (runCbs a n v u t e) := by
  unfold runCbs
  exact List.foldl_append _ _ _ _

theorem runCbs_cons_fail {σ : Type} (f : Cb σ) (l : List (Cb σ)) (n : String)
    (v : Option Rat) (u : String) (t : Nat) (e : σ)
    (hfail : ∀ n v u t x, f.run n v u t x = Except.error ()) :
    runCbs (f :: l) n v u t e = runCbs l n v u t e := by
  unfold runCbs
  simp only [List.foldl_cons, hfail]

/-! ### Claim theorems -/

/-- Claim C7: normalization of a raw payload is total and never raises:
string payloads succeed exactly when they parse as a number, yielding the
number rounded (ties to even) to two decimals, numeric payloads are
rounded likewise, and `None`/non-coercible payloads yield an absent value;
the spec scenario `"23.456" ↦ 23.46` and `"N/A" ↦ absent` hold. -/
theorem c7_safe_float_total :
    (∀ s, safe_float (RawValue.str s) = (parseFloat s).map round2)
    ∧ (∀ q, safe_float (RawValue.num q) = some (round2 q))
    ∧ safe_float RawValue.noneV = none
    ∧ safe_float RawValue.other = none
    ∧ safe_float (RawValue.str "23.456") = some ((1173 : Rat) / 50)
    ∧ safe_float (RawValue.str "N/A") = none := by
  refine ⟨fun s => ?_, fun q => rfl, rfl, rfl, ?_, rfl⟩
  · unfold safe_float pyFloat
    cases h : parseFloat s with
    | none => simp [h]
    | some q => simp [h]
  · have d1 : digitsVal ['2', '3'] = 23 := rfl
    have d2 : digitsVal ['4', '5', '6'] = 456 := rfl
    have h : parseFloat "23.456"
        = some ((digitsVal ['2', '3'] : Rat)
            + (digitsVal ['4', '5', '6'] : Rat) / ((10 : Rat) ^ (3 : Nat))) :=
      rfl
    rw [d1, d2] at h
    have h2 : parseFloat "23.456" = some (2932 / 125) := by
      rw [h]; norm_num
    simp only [safe_float, pyFloat, h2]
    norm_num [round2, roundHalfEven]

theorem processSeq_keysNodup (tag : String)
    (ups : List (Option Rat × String × Nat)) :
    ∀ s : DbConnector.State, keysNodup s.current_values →
      keysNodup (DbConnector.processSeq s tag ups).current_values := by
  induction ups with
  | nil => intro s h; exact h
  | cons u rest ih =>
    intro s h
    exact ih _ (keysNodup_dictSet _ _ _ h)

/-- Claim C2: for a sequence of update events on the same tag, the value
cache afterwards holds exactly the last event's value/unit/timestamp
(whole-entry last-write-wins), every other tag's entry is untouched, and
at every point of the sequence the cache still holds at most one entry per
tag name. -/
theorem c2_last_write_wins (s : DbConnector.State) (tag : String)
    (ups : List (Option Rat × String × Nat)) (h : ups ≠ []) :
    dictGet (DbConnector.processSeq s tag ups).current_values tag
      = some ⟨(ups.getLast h).1, (ups.getLast h).2.1, (ups.getLast h).2.2⟩
    ∧ (∀ k, k ≠ tag →
        dictGet (DbConnector.processSeq s tag ups).current_values k
          = dictGet s.current_values k)
    ∧ (keysNodup s.current_values → ∀ n,
        keysNodup (DbConnector.processSeq s tag (ups.take n)).current_values) :=
  by
  refine ⟨?_, ?_, fun hn n => processSeq_keysNodup tag (ups.take n) s hn⟩
  · revert h
    induction ups generalizing s with
    | nil => intro h; exact absurd rfl h
    | cons u rest ih =>
      intro h
      cases rest with
      | nil =>
        simp only [DbConnector.processSeq, List.foldl_cons, List.foldl_nil,
          List.getLast_singleton]
        exact dictGet_dictSet_self _ _ _
      | cons u2 rest2 =>
        have hne : u2 :: rest2 ≠ [] := List.cons_ne_nil _ _
        have hstep : DbConnector.processSeq s tag (u :: u2 :: rest2)
            = DbConnector.processSeq
                (DbConnector.update_value s tag u.1 u.2.1 u.2.2) tag
                (u2 :: rest2) := rfl
        rw [hstep, List.getLast_cons hne]
        exact ih _ hne
  · clear h
    induction ups generalizing s with
    | nil => intro k _; rfl
    | cons u rest ih =>
      intro k hk
      have hstep : DbConnector.processSeq s tag (u :: rest)
          = DbConnector.processSeq
              (DbConnector.update_value s tag u.1 u.2.1 u.2.2) tag rest := rfl
      rw [hstep, ih _ k hk]
      exact dictGet_dictSet_ne s.current_values tag k ⟨u.1, u.2.1, u.2.2⟩ hk

/-- Witness for C2: two successive updates for `"Temp1"` leave exactly the
second one in the cache, the `"Hum1"` entry untouched, and the key set
duplicate-free. -/
theorem c2_witness :
    dictGet (DbConnector.processSeq c2W_state "Temp1"
        [(none, "C", 1), (some 5, "C", 2)]).current_values "Temp1"
      = some ⟨some 5, "C", 2⟩
    ∧ dictGet (DbConnector.processSeq c2W_state "Temp1"
        [(none, "C", 1), (some 5, "C", 2)]).current_values "Hum1"
      = some ⟨none, "%", 0⟩
    ∧ keysNodup (DbConnector.processSeq c2W_state "Temp1"
        [(none, "C", 1), (some 5, "C", 2)]).current_values := by
  have h := c2_last_write_wins c2W_state "Temp1"
    [(none, "C", 1), (some 5, "C", 2)] (List.cons_ne_nil _ _)
  refine ⟨h.1, ?_, ?_⟩
  · rw [h.2.1 "Hum1" (by decide)]
    rfl
  · have h3 := h.2.2 (by decide) 2
    simpa using h3

/-- Claim C3: when an accepted update event hits a callback list containing
a listener that always fails, the cache has nevertheless been updated with
the event's whole entry, and the listeners after the failing one run
exactly as they would without it (the failure is caught inside the
notification loop and never propagates). -/
theorem c3_listener_isolation {σ : Type} (st : OpcState σ) (e : σ)
    (nodeId : String) (raw : RawValue) (info : NodeInfo)
    (cbsA : List (Cb σ)) (f : Cb σ) (cbsB : List (Cb σ))
    (hfind : st.nodes_to_monitor.find? (fun i => i.id == nodeId) = some info)
    (hsplit : st.value_callbacks = cbsA ++ f :: cbsB)
    (hfail : ∀ n v u t x, f.run n v u t x = Except.error ()) :
    (datachange_notification st e nodeId raw).1.latest_values
      = dictSet st.latest_values info.name
          ⟨safe_float raw, info.unit, st.clock⟩
    ∧ (datachange_notification st e nodeId raw).2.1
      = runCbs cbsB info.name (safe_float raw) info.unit (st.clock + 1)
          (runCbs cbsA info.name (safe_float raw) info.unit (st.clock + 1) e) :=
  by
  unfold datachange_notification
  rw [hfind]
  refine ⟨rfl, ?_⟩
  show runCbs st.value_callbacks info.name (safe_float raw) info.unit
      (st.clock + 1) e = _
  rw [hsplit, runCbs_append, runCbs_cons_fail f cbsB _ _ _ _ _ hfail]

/-- Witness for C3: with an always-failing first listener, the cache is
still updated and the second listener still receives the update — its
recorded log holds exactly the delivered tuple. -/
theorem c3_witness :
    (datachange_notification c3W_state ([] : RecWorld) "ns=2;i=5"
        (RawValue.str "N/A")).1.latest_values
      = dictSet ([] : List (String × Sample)) "Temp1"
          ⟨safe_float (RawValue.str "N/A"), "C", 0⟩
    ∧ (datachange_notification c3W_state ([] : RecWorld) "ns=2;i=5"
        (RawValue.str "N/A")).2.1
      = runCbs [recording_cb] "Temp1" (safe_float (RawValue.str "N/A")) "C" 1
          (runCbs [] "Temp1" (safe_float (RawValue.str "N/A")) "C" 1 [])
    ∧ (datachange_notification c3W_state ([] : RecWorld) "ns=2;i=5"
        (RawValue.str "N/A")).2.1
      = [("Temp1", (none : Option Rat), "C", 1)] := by
  have h := c3_listener_isolation c3W_state [] "ns=2;i=5" (RawValue.str "N/A")
    ⟨"ns=2;i=5", "Temp1", "C"⟩ [] failing_cb [recording_cb]
    rfl rfl (fun _ _ _ _ _ => rfl)
  exact ⟨h.1, h.2, h.2.trans (by rfl)⟩

/-- Claim C6, amended: every registered listener is invoked with the same
name, normalized value and unit as the cache entry written for the event,
but the timestamp handed to the listeners is a fresh clock reading taken
after the cache write — strictly later than, not equal to, the cached
timestamp. -/
theorem c6_amended {σ : Type} (st : OpcState σ) (e : σ) (nodeId : String)
    (raw : RawValue) (info : NodeInfo)
    (hfind : st.nodes_to_monitor.find? (fun i => i.id == nodeId) = some info) :
    dictGet (datachange_notification st e nodeId raw).1.latest_values
        info.name
      = some ⟨safe_float raw, info.unit, st.clock⟩
    ∧ (datachange_notification st e nodeId raw).2.2
      = some (info.name, safe_float raw, info.unit, st.clock + 1)
    ∧ (datachange_notification st e nodeId raw).2.1
      = runCbs st.value_callbacks info.name (safe_float raw) info.unit
          (st.clock + 1) e
    ∧ st.clock + 1 ≠ st.clock := by
  unfold datachange_notification
  rw [hfind]
  exact ⟨dictGet_dictSet_self _ _ _, rfl, rfl, Nat.succ_ne_self _⟩

/-- Witness for the amended C6 at a concrete event. -/
theorem c6_witness :
    dictGet (datachange_notification
        { nodes_to_monitor := [⟨"ns=2;i=5", "Temp1", "C"⟩],
          latest_values := [], value_callbacks := [],
          clock := 0 : OpcState Unit } () "ns=2;i=5"
        (RawValue.str "N/A")).1.latest_values "Temp1"
      = some ⟨safe_float (RawValue.str "N/A"), "C", 0⟩
    ∧ (datachange_notification
        { nodes_to_monitor := [⟨"ns=2;i=5", "Temp1", "C"⟩],
          latest_values := [], value_callbacks := [],
          clock := 0 : OpcState Unit } () "ns=2;i=5"
        (RawValue.str "N/A")).2.2
      = some ("Temp1", safe_float (RawValue.str "N/A"), "C", 1) := by
  have h := c6_amended
    { nodes_to_monitor := [⟨"ns=2;i=5", "Temp1", "C"⟩],
      latest_values := [], value_callbacks := [],
      clock := 0 : OpcState Unit } () "ns=2;i=5" (RawValue.str "N/A")
    ⟨"ns=2;i=5", "Temp1", "C"⟩ rfl
  exact ⟨h.1, h.2.1⟩

/-- Counterexample to C6 as stated: for the concrete event below, the
timestamp stored in the cache entry is the clock reading 0 while every
listener is handed the later reading 1 — the delivered tuple does not
equal the cached one. -/
theorem c6_counterexample :
    dictGet (datachange_notification
        { nodes_to_monitor := [⟨"ns=2;i=5", "Temp1", "C"⟩],
          latest_values := [], value_callbacks := [],
          clock := 0 : OpcState Unit } () "ns=2;i=5"
        RawValue.noneV).1.latest_values "Temp1"
      = some ⟨none, "C", 0⟩
    ∧ (datachange_notification
        { nodes_to_monitor := [⟨"ns=2;i=5", "Temp1", "C"⟩],
          latest_values := [], value_callbacks := [],
          clock := 0 : OpcState Unit } () "ns=2;i=5"
        RawValue.noneV).2.2
      = some ("Temp1", none, "C", 1)
    ∧ (1 : Nat) ≠ 0 := by
  refine ⟨rfl, rfl, by decide⟩

theorem foldl_insertFold (m : List (String × String)) :
    ∀ (l : List (String × Sample)) (fs : List String)
      (vs : List (Option Rat)),
    l.foldl (DbConnector.insertFold m) (fs, vs)
      = (fs ++ (DbConnector.projPairs m l).map Prod.fst,
         vs ++ (DbConnector.projPairs m l).map Prod.snd) := by
  intro l
  induction l with
  | nil => intro fs vs; simp [DbConnector.projPairs]
  | cons p t ih =>
    intro fs vs
    cases h : dictGet m p.1 with
    | none =>
      simp only [List.foldl_cons, DbConnector.insertFold, h,
        DbConnector.projPairs, List.filterMap_cons, Option.map_none]
      exact ih fs vs
    | some fld =>
      simp only [List.foldl_cons, DbConnector.insertFold, h,
        DbConnector.projPairs, List.filterMap_cons, Option.map_some]
      rw [ih (fs ++ [fld]) (vs ++ [p.2.value])]
      simp [DbConnector.projPairs]

theorem buildInsert_eq (s : DbConnector.State) :
    DbConnector.buildInsert s
      = ("timestamp" :: (DbConnector.projRow s).map Prod.fst,
         (DbConnector.projRow s).map Prod.snd) := by
  unfold DbConnector.buildInsert DbConnector.projRow
  rw [foldl_insertFold s.opc_to_db_mapping s.current_values ["timestamp"] []]
  simp

theorem zip_proj (l : List (String × Option Rat)) :
    (l.map Prod.fst).zip (l.map Prod.snd) = l := by
  induction l with
  | nil => rfl
  | cons p t ih => simp [ih]

/-- Claim C1, amended: when connected and the insert does not fail, a
persistence cycle appends exactly one row containing, beyond the implicit
capture-timestamp column, the mapped column of every tag present in the
cache that has a mapping — with its cached value even when that value is
absent (stored as NULL); no insert is issued exactly when no cached tag
has a mapping (in particular when the cache is empty). -/
theorem c1_amended (w : DbConnector.World) (s : DbConnector.State)
    (hc : s.connected = true) (hf : w.insertFails = false) :
    (DbConnector.log_current_values w s).insertedRows
      = s.insertedRows
        ++ (if DbConnector.projRow s = [] then []
            else [DbConnector.projRow s]) := by
  unfold DbConnector.log_current_values
  by_cases hemp : s.current_values.isEmpty
  · have hnil : s.current_values = [] := by
      cases hl : s.current_values with
      | nil => rfl
      | cons a b => rw [hl] at hemp; simp [List.isEmpty] at hemp
    have hrow : DbConnector.projRow s = [] := by
      unfold DbConnector.projRow DbConnector.projPairs
      rw [hnil]; rfl
    simp [hc, hemp, hrow]
  · simp only [hc, hemp, Bool.false_eq_true, not_true, or_false, false_or,
      if_neg, not_false_iff]
    rw [buildInsert_eq s]
    by_cases hrow : DbConnector.projRow s = []
    · simp [hrow]
    · have hlen : ¬ ("timestamp" :: (DbConnector.projRow s).map
          Prod.fst).length ≤ 1 := by
        simp only [List.length_cons, List.length_map]
        have : (DbConnector.projRow s).length ≠ 0 := by
          simpa [List.length_eq_zero] using hrow
        omega
      simp only [hlen, if_false, hf, Bool.false_eq_true, if_neg,
        not_false_iff, List.tail_cons, zip_proj, hrow]

/-- Counterexample to C1 as stated: a cache holding one mapped tag whose
value is absent. The claim demands that the tag's column be excluded and
that, since zero mappable tags have a non-absent value, no insert be
issued — but the cycle issues an insert and it carries the column with a
NULL value. -/
theorem c1_counterexample :
    (DbConnector.log_current_values
        ⟨true, true, false, false, [("Temp1", "temp1")]⟩
        { connected := true,
          current_values := [("Temp1", ⟨none, "C", 0⟩)],
          opc_to_db_mapping := [("Temp1", "temp1")],
          shutdown_event := false, logging_active := true,
          insertedRows := [], cycleCount := 0 }).insertedRows
      = [[("temp1", (none : Option Rat))]]
    ∧ ([[("temp1", (none : Option Rat))]]
        : List (List (String × Option Rat))) ≠ [] := by
  exact ⟨rfl, by simp⟩

/-- Witness for the amended C1: the cycle issues one insert carrying
exactly the mapped tag's column; the unmapped tag is excluded. -/
theorem c1_witness :
    (DbConnector.log_current_values
        ⟨true, true, false, false, [("Temp1", "temp1")]⟩
        c1W_state).insertedRows
      = [[("temp1", (some 5 : Option Rat))]] := by
  rw [c1_amended ⟨true, true, false, false, [("Temp1", "temp1")]⟩
    c1W_state rfl rfl]
  rfl

/-- Claim C4 fails on the code: at the first storage failure during an
insert, `_try_reconnect` calls `disconnect`, which sets the shutdown event
and attempts to join the logging thread from within itself; the worker's
loop condition then fails, so over five (and fifty) scheduled ticks
exactly one persistence cycle ever runs, no insert is recorded, and the
worker is permanently stopped — it does not perform a cycle at the next
scheduled tick as the claim states. -/
theorem c4_worker_dies :
    (DbConnector.logging_worker 5 c4_world c4_state).cycleCount = 1
    ∧ (DbConnector.logging_worker 5 c4_world c4_state).shutdown_event = true
    ∧ (DbConnector.logging_worker 5 c4_world c4_state).insertedRows = []
    ∧ DbConnector.logging_worker 50 c4_world c4_state
      = DbConnector.logging_worker 1 c4_world c4_state := by
  exact ⟨rfl, rfl, rfl, rfl⟩

/-- Claim C8: whenever the fresh connect of a storage reconnection
succeeds, the tag-to-column mapping of the resulting state is exactly the
one freshly loaded from the backend, the worker is (re)armed
(shutdown cleared, logging active), and every subsequent persistence
cycle's projection runs through that refreshed mapping. -/
theorem c8_reconnect_reloads_mapping (w : DbConnector.World)
    (s : DbConnector.State) (h : (DbConnector.connect w s).1 = true) :
    (DbConnector.connect w s).2.opc_to_db_mapping
      = DbConnector.load_tag_mappings w
    ∧ (DbConnector.connect w s).2.connected = true
    ∧ (DbConnector.connect w s).2.shutdown_event = false
    ∧ (DbConnector.connect w s).2.logging_active = true
    ∧ DbConnector.projRow (DbConnector.connect w s).2
      = DbConnector.projPairs (DbConnector.load_tag_mappings w)
          s.current_values := by
  unfold DbConnector.connect at h ⊢
  by_cases he : w.enabled
  · by_cases hu : w.dbUp
    · simp only [he, hu, not_true, if_false]
      unfold DbConnector.start_logging_thread
      simp [he, DbConnector.projRow]
    · simp [he, hu] at h
  · simp [he] at h

/-- Witness for C8: a successful fresh connect replaces a stale mapping
with the backend's current `tagnames` table. -/
theorem c8_witness :
    (DbConnector.connect ⟨true, true, false, false, [("Temp1", "t1")]⟩
        { connected := false,
          current_values := [],
          opc_to_db_mapping := [("Temp1", "stale")],
          shutdown_event := true, logging_active := false,
          insertedRows := [], cycleCount := 0 }).2.opc_to_db_mapping
      = [("Temp1", "t1")] := by
  rw [(c8_reconnect_reloads_mapping
    ⟨true, true, false, false, [("Temp1", "t1")]⟩
    { connected := false, current_values := [],
      opc_to_db_mapping := [("Temp1", "stale")],
      shutdown_event := true, logging_active := false,
      insertedRows := [], cycleCount := 0 } rfl).1]
  rfl

theorem loadLoop_stops (entries : List (String × String)) (k : Nat)
    (hpres : ∀ j, 1 ≤ j → j < k →
      (secGet entries (nodeKey j "_id")).isSome
        ∧ (secGet entries (nodeKey j "_name")).isSome)
    (habs : secGet entries (nodeKey k "_id") = none) :
    ∀ fuel i, 1 ≤ i → i ≤ k → k ≤ i + fuel →
      loadLoop entries fuel i
        = .ok ((List.range (k - i)).map (fun d => tagAt entries (i + d))) := by
  intro fuel
  induction fuel with
  | zero =>
    intro i h1 h2 h3
    have hik : i = k := by omega
    subst hik
    simp [loadLoop]
  | succ n ih =>
    intro i h1 h2 h3
    by_cases hik : i = k
    · subst hik
      simp [loadLoop, habs]
    · have hlt : i < k := by omega
      obtain ⟨hid, hnm⟩ := hpres i h1 hlt
      obtain ⟨nid, hid2⟩ := Option.isSome_iff_exists.mp hid
      obtain ⟨nm, hnm2⟩ := Option.isSome_iff_exists.mp hnm
      have hrec := ih (i + 1) (by omega) (by omega) (by omega)
      simp only [loadLoop, hid2, hnm2, hrec]
      have hrange : k - i = (k - (i + 1)) + 1 := by omega
      rw [hrange, List.range_succ_eq_map]
      simp only [List.map_cons, List.map_map, Nat.add_zero]
      congr 1
      congr 1
      · simp [tagAt, hid2, hnm2]
      · apply List.map_congr_left
        intro d _
        simp only [Function.comp]
        congr 1
        omega

/-- Claim C5, amended: when a declared tag index (its name attribute is
present) is missing its node-identifier attribute, loading does not fail
at all — neither with a ConfigurationError (no such error exists in the
code) nor with any other error; the scan silently stops at that index and
returns only the tags of the earlier indices. The bound
`k ≤ entries.length + 1` always holds in a real section because the
earlier indices contribute `k - 1` distinct present keys. -/
theorem c5_amended (entries : List (String × String)) (k : Nat)
    (h1 : 1 ≤ k) (h2 : k ≤ entries.length + 1)
    (hpres : ∀ j, 1 ≤ j → j < k →
      (secGet entries (nodeKey j "_id")).isSome
        ∧ (secGet entries (nodeKey j "_name")).isSome)
    (habs : secGet entries (nodeKey k "_id") = none)
    (_hdecl : (secGet entries (nodeKey k "_name")).isSome) :
    loadTags entries
      = .ok ((List.range (k - 1)).map (fun d => tagAt entries (1 + d))) := by
  unfold loadTags
  exact loadLoop_stops entries k hpres habs (entries.length + 1) 1
    (by omega) h1 (by omega)

/-- Counterexample to C5 as stated: in this section, index 2 is declared
(its name is present) but its node identifier is missing; the claim says
loading must fail with a ConfigurationError, yet it succeeds and silently
returns the shorter one-tag list. -/
theorem c5_counterexample :
    loadTags [("node1_id", "ns=2;i=5"), ("node1_name", "Temp1"),
        ("node1_unit", "C"), ("node2_name", "Temp2")]
      = .ok [⟨"ns=2;i=5", "Temp1", "C"⟩]
    ∧ (∀ e, loadTags [("node1_id", "ns=2;i=5"), ("node1_name", "Temp1"),
        ("node1_unit", "C"), ("node2_name", "Temp2")] ≠ .error e)
    ∧ secGet [("node1_id", "ns=2;i=5"), ("node1_name", "Temp1"),
        ("node1_unit", "C"), ("node2_name", "Temp2")] (nodeKey 2 "_id")
      = none
    ∧ (secGet [("node1_id", "ns=2;i=5"), ("node1_name", "Temp1"),
        ("node1_unit", "C"), ("node2_name", "Temp2")] (nodeKey 2 "_name")).isSome
      = true := by
  refine ⟨rfl, ?_, rfl, rfl⟩
  intro e h
  have hok : loadTags [("node1_id", "ns=2;i=5"), ("node1_name", "Temp1"),
      ("node1_unit", "C"), ("node2_name", "Temp2")]
      = .ok [⟨"ns=2;i=5", "Temp1", "C"⟩] := rfl
  rw [hok] at h
  exact Except.noConfusion h

/-- Witness for the amended C5 at a concrete two-index section. -/
theorem c5_witness :
    loadTags [("node1_id", "ns=1;i=1"), ("node1_name", "Pres1"),
        ("node2_name", "Pres2")]
      = .ok [⟨"ns=1;i=1", "Pres1", ""⟩] := by
  rw [c5_amended [("node1_id", "ns=1;i=1"), ("node1_name", "Pres1"),
      ("node2_name", "Pres2")] 2 (by omega) (by simp)
    (fun j hj1 hj2 => by
      have hj : j = 1 := by omega
      subst hj
      exact ⟨by decide, by decide⟩)
    (by decide) (by decide)]
  rfl

theorem mem_insertSorted (x y : Nat × Rat) (l : List (Nat × Rat)) :
    y ∈ Unity.insertSorted x l ↔ y = x ∨ y ∈ l := by
  induction l with
  | nil => simp [Unity.insertSorted]
  | cons z t ih =>
    unfold Unity.insertSorted
    by_cases h : x.1 ≤ z.1
    · simp [h]
    · simp only [h, if_false, List.mem_cons, ih]
      tauto

theorem pairwise_insertSorted (x : Nat × Rat) (l : List (Nat × Rat))
    (h : l.Pairwise (fun a b => a.1 ≤ b.1)) :
    (Unity.insertSorted x l).Pairwise (fun a b => a.1 ≤ b.1) := by
  induction l with
  | nil => simp [Unity.insertSorted]
  | cons z t ih =>
    rw [List.pairwise_cons] at h
    unfold Unity.insertSorted
    by_cases hle : x.1 ≤ z.1
    · simp only [hle, if_true, List.pairwise_cons]
      refine ⟨?_, h.1, h.2⟩
      intro b hb
      rcases List.mem_cons.mp hb with hbz | hbt
      · exact hbz ▸ hle
      · exact le_trans hle (h.1 b hbt)
    · simp only [hle, if_false, List.pairwise_cons]
      refine ⟨?_, ih h.2⟩
      intro b hb
      rcases (mem_insertSorted x b t).mp hb with hbx | hbt
      · subst hbx; omega
      · exact h.1 b hbt

theorem pairwise_sortRows (l : List (Nat × Rat)) :
    (Unity.sortRows l).Pairwise (fun a b => a.1 ≤ b.1) := by
  unfold Unity.sortRows
  induction l with
  | nil => simp
  | cons x t ih =>
    simp only [List.foldr_cons]
    exact pairwise_insertSorted x _ ih

theorem pairwise_get_field_history (w : Unity.HistWorld) (fld : String)
    (hours limit : Nat) :
    (Unity.get_field_history w fld hours limit).Pairwise
      (fun a b => a.1 ≤ b.1) := by
  unfold Unity.get_field_history
  by_cases hc : w.connected
  · by_cases hq : w.queryFails
    · simp [hc, hq]
    · simp only [hc, hq, not_true, Bool.false_eq_true, if_false, if_neg,
        not_false_iff]
      exact (pairwise_sortRows _).sublist (List.take_sublist _ _)
  · simp [hc]

/-- Claim C9: the history route always produces a structured result:
"unavailable" exactly when the database connector is absent or not
connected; "not found" when the tag has no storage mapping and when the
window query comes back empty (including the caught query-error case);
otherwise the rows `(value, unit, timestamp)` of the window, and every
window query result is ordered by timestamp. -/
theorem c9_history_route (w : Unity.HistWorld) (nm : String) (hours : Nat) :
    (Unity.get_history w nm hours = Unity.HistResult.unavailable
       ↔ ¬ (w.dbPresent = true ∧ w.connected = true))
    ∧ (w.dbPresent = true → w.connected = true →
        dictGet w.mapping nm = none →
        Unity.get_history w nm hours = Unity.HistResult.notFound)
    ∧ (∀ fld, w.dbPresent = true → w.connected = true →
        dictGet w.mapping nm = some fld →
        Unity.get_field_history w fld hours 1000 = [] →
        Unity.get_history w nm hours = Unity.HistResult.notFound)
    ∧ (∀ fld, w.dbPresent = true → w.connected = true →
        dictGet w.mapping nm = some fld →
        Unity.get_field_history w fld hours 1000 ≠ [] →
        Unity.get_history w nm hours
          = Unity.HistResult.ok
              ((Unity.get_field_history w fld hours 1000).map
                (fun p => (p.2,
                  ((dictGet w.current_values nm).map Sample.unit).getD "",
                  p.1))))
    ∧ (∀ fld limit, (Unity.get_field_history w fld hours limit).Pairwise
        (fun a b => a.1 ≤ b.1)) := by
  refine ⟨?_, ?_, ?_, ?_,
    fun fld limit => pairwise_get_field_history w fld hours limit⟩
  · by_cases hd : w.dbPresent
    · by_cases hc : w.connected
      · simp only [Unity.get_history, hd, hc, not_true, or_self, if_false,
          if_neg, not_false_iff, and_self, iff_false]
        split
        · simp
        · simp
      · simp [Unity.get_history, hc]
    · simp [Unity.get_history, hd]
  · intro hd hc hmap
    simp [Unity.get_history, Unity.get_tag_history, hd, hc, hmap]
  · intro fld hd hc hmap hemp
    simp [Unity.get_history, Unity.get_tag_history, hd, hc, hmap, hemp]
  · intro fld hd hc hmap hne
    simp only [Unity.get_history, Unity.get_tag_history, hd, hc, not_true,
      or_self, if_false, if_neg, not_false_iff, hmap]
    rw [if_neg]
    simp only [List.isEmpty_eq_true, List.map_eq_nil_iff]
    exact hne

/-- Witness for C9: one request per claimed outcome. -/
theorem c9_witness :
    Unity.get_history c9U_world "Temp1" 24 = Unity.HistResult.unavailable
    ∧ Unity.get_history c9C_world "Nope" 24 = Unity.HistResult.notFound
    ∧ Unity.get_history c9C_world "T2" 24 = Unity.HistResult.notFound
    ∧ Unity.get_history c9C_world "Temp1" 24
      = Unity.HistResult.ok [((5 : Rat), "", 10)] := by
  refine ⟨?_, ?_, ?_, ?_⟩
  · exact (c9_history_route c9U_world "Temp1" 24).1.mpr (by simp [c9U_world])
  · exact (c9_history_route c9C_world "Nope" 24).2.1 rfl rfl (by decide)
  · exact (c9_history_route c9C_world "T2" 24).2.2.1 "t2" rfl rfl
      (by decide) rfl
  · have hval : Unity.get_field_history c9C_world "temp1" 24 1000
        = [(10, (5 : Rat))] := rfl
    have h := (c9_history_route c9C_world "Temp1" 24).2.2.2.1 "temp1"
      rfl rfl (by decide) (by rw [hval]; exact List.cons_ne_nil _ _)
    rw [hval] at h
    exact h.trans (by rfl)

theorem seedNodes_no_callbacks {σ : Type} (readVal : String → RawValue)
    (infos : List NodeInfo) :
    ∀ (st : OpcState σ) (e : σ), st.value_callbacks = [] →
      (seedNodes readVal infos st e).2 = e
      ∧ (seedNodes readVal infos st e).1.value_callbacks = []
      ∧ (seedNodes readVal infos st e).1.nodes_to_monitor
        = st.nodes_to_monitor := by
  induction infos with
  | nil => intro st e h; exact ⟨rfl, h, rfl⟩
  | cons info rest ih =>
    intro st e h
    have hstep : seedNodes readVal (info :: rest) st e
        = seedNodes readVal rest (seedStep readVal (st, e) info).1
            (seedStep readVal (st, e) info).2 := rfl
    have hcb : (seedStep readVal (st, e) info).1.value_callbacks = [] := h
    have hext : (seedStep readVal (st, e) info).2 = e := by
      show runCbs st.value_callbacks _ _ _ _ e = e
      rw [h]
      rfl
    have hnodes : (seedStep readVal (st, e) info).1.nodes_to_monitor
        = st.nodes_to_monitor := rfl
    obtain ⟨g1, g2, g3⟩ := ih (seedStep readVal (st, e) info).1
      (seedStep readVal (st, e) info).2 hcb
    rw [hstep]
    exact ⟨g1.trans hext, g2, g3.trans hnodes⟩

theorem seedNodes_isSome {σ : Type} (readVal : String → RawValue)
    (infos : List NodeInfo) :
    ∀ (st : OpcState σ) (e : σ) (nm : String),
      (dictGet (seedNodes readVal infos st e).1.latest_values nm).isSome
        ↔ nm ∈ infos.map NodeInfo.name
          ∨ (dictGet st.latest_values nm).isSome := by
  induction infos with
  | nil => intro st e nm; simp [seedNodes]
  | cons info rest ih =>
    intro st e nm
    have hstep : seedNodes readVal (info :: rest) st e
        = seedNodes readVal rest (seedStep readVal (st, e) info).1
            (seedStep readVal (st, e) info).2 := rfl
    have hlat : (seedStep readVal (st, e) info).1.latest_values
        = dictSet st.latest_values info.name
            ⟨safe_float (readVal info.id), info.unit, st.clock⟩ := rfl
    rw [hstep, ih, hlat, List.map_cons, List.mem_cons,
      dictGet_isSome_iff_mem_keys, mem_keys_dictSet,
      ← dictGet_isSome_iff_mem_keys]
    tauto

theorem runCbs_startup (dbc : Bool) (n : String) (v : Option Rat)
    (u : String) (t : Nat) (w : GwWorld) (hdb : w.db.connected = dbc) :
    runCbs (startup_callbacks dbc) n v u t w
      = { unity_latest := dictSet w.unity_latest n ⟨v, u, t⟩,
          db := if dbc then DbConnector.update_value w.db n v u t
                else w.db } := by
  cases dbc with
  | false =>
    simp only [startup_callbacks, Bool.false_eq_true, if_false,
      List.nil_append, runCbs, List.foldl_cons, List.foldl_nil,
      on_value_update]
  | true =>
    simp only [startup_callbacks, if_true, List.cons_append,
      List.nil_append, runCbs, List.foldl_cons, List.foldl_nil,
      db_update_callback, on_value_update, hdb]

theorem processEvents_caches (nodes : List NodeInfo) (dbc : Bool) :
    ∀ (evs : List (String × RawValue)) (st : OpcState GwWorld)
      (w : GwWorld),
      st.nodes_to_monitor = nodes →
      st.value_callbacks = startup_callbacks dbc →
      w.db.connected = dbc →
      (processEvents (st, w) evs).2.db.connected = dbc
      ∧ (∀ nm,
          (dictGet (processEvents (st, w) evs).2.unity_latest nm).isSome
            ↔ nm ∈ resolvedNames nodes evs
              ∨ (dictGet w.unity_latest nm).isSome)
      ∧ (∀ nm,
          (dictGet (processEvents (st, w) evs).2.db.current_values
            nm).isSome
            ↔ (dbc = true ∧ nm ∈ resolvedNames nodes evs)
              ∨ (dictGet w.db.current_values nm).isSome) := by
  intro evs
  induction evs with
  | nil =>
    intro st w h1 h2 h3
    refine ⟨h3, fun nm => ?_, fun nm => ?_⟩
    · simp [processEvents, resolvedNames]
    · simp only [processEvents, List.foldl_nil, resolvedNames,
        List.filterMap_nil, List.not_mem_nil, and_false, false_or]
  | cons ev rest ih =>
    intro st w h1 h2 h3
    cases hf : st.nodes_to_monitor.find? (fun i => i.id == ev.1) with
    | none =>
      have hstep : processEvents (st, w) (ev :: rest)
          = processEvents (st, w) rest := by
        simp only [processEvents, List.foldl_cons]
        have : evStep (st, w) ev = (st, w) := by
          unfold evStep datachange_notification
          rw [hf]
        rw [this]
      have hres : resolvedNames nodes (ev :: rest)
          = resolvedNames nodes rest := by
        unfold resolvedNames
        rw [List.filterMap_cons]
        rw [h1] at hf
        simp [hf]
      rw [hstep, hres]
      exact ih st w h1 h2 h3
    | some info =>
      have hstep : processEvents (st, w) (ev :: rest)
          = processEvents
              ({ st with
                  latest_values := dictSet st.latest_values info.name
                    ⟨safe_float ev.2, info.unit, st.clock⟩,
                  clock := st.clock + 1 + 1 },
               runCbs st.value_callbacks info.name (safe_float ev.2)
                 info.unit (st.clock + 1) w) rest := by
        simp only [processEvents, List.foldl_cons]
        have : evStep (st, w) ev
            = ({ st with
                  latest_values := dictSet st.latest_values info.name
                    ⟨safe_float ev.2, info.unit, st.clock⟩,
                  clock := st.clock + 1 + 1 },
               runCbs st.value_callbacks info.name (safe_float ev.2)
                 info.unit (st.clock + 1) w) := by
          unfold evStep datachange_notification
          rw [hf]
          rfl
        rw [this]
      have hw2 : runCbs st.value_callbacks info.name (safe_float ev.2)
          info.unit (st.clock + 1) w
          = { unity_latest := dictSet w.unity_latest info.name
                ⟨safe_float ev.2, info.unit, st.clock + 1⟩,
              db := if dbc then
                  DbConnector.update_value w.db info.name (safe_float ev.2)
                    info.unit (st.clock + 1)
                else w.db } := by
        rw [h2]
        exact runCbs_startup dbc _ _ _ _ w h3
      have hres : resolvedNames nodes (ev :: rest)
          = info.name :: resolvedNames nodes rest := by
        unfold resolvedNames
        rw [List.filterMap_cons]
        rw [h1] at hf
        simp [hf]
      rw [hstep, hw2, hres]
      have hcon : (if dbc then
          DbConnector.update_value w.db info.name (safe_float ev.2)
            info.unit (st.clock + 1)
        else w.db).connected = dbc := by
        cases dbc with
        | false => simpa using h3
        | true => simpa [DbConnector.update_value] using h3
      obtain ⟨g1, g2, g3⟩ := ih
        ({ st with
            latest_values := dictSet st.latest_values info.name
              ⟨safe_float ev.2, info.unit, st.clock⟩,
            clock := st.clock + 1 + 1 })
        ({ unity_latest := dictSet w.unity_latest info.name
              ⟨safe_float ev.2, info.unit, st.clock + 1⟩,
            db := if dbc then
                DbConnector.update_value w.db info.name (safe_float ev.2)
                  info.unit (st.clock + 1)
              else w.db })
        h1 h2 hcon
      refine ⟨g1, fun nm => ?_, fun nm => ?_⟩
      · rw [g2 nm]
        simp only [List.mem_cons]
        rw [dictGet_isSome_iff_mem_keys, mem_keys_dictSet,
          ← dictGet_isSome_iff_mem_keys]
        tauto
      · rw [g3 nm]
        cases dbc with
        | false =>
          simp only [Bool.false_eq_true, if_false, false_and, false_or]
        | true =>
          simp only [if_true, DbConnector.update_value, true_and,
            List.mem_cons]
          rw [dictGet_isSome_iff_mem_keys, mem_keys_dictSet,
            ← dictGet_isSome_iff_mem_keys]
          tauto

/-- Claim C10: in the startup sequence, subscription with initial-value
seeding runs before any listener is registered, so the seeded values land
only in the protocol connector's own cache: after startup the Unity cache
and the persistence cache are empty, the seeded tags are present exactly
in the connector cache, and after any sequence of live events a tag is
served by the HTTP single-tag read (resp. present in the persistence
cache, when the database connected) exactly when some live event resolved
to it. -/
theorem c10_seeding_before_listener_registration
    (nodes : List NodeInfo) (readVal : String → RawValue) (dbc : Bool)
    (evs : List (String × RawValue)) (nm : String) :
    ((dictGet (main_startup nodes readVal dbc).1.latest_values nm).isSome
      ↔ nm ∈ nodes.map NodeInfo.name)
    ∧ (main_startup nodes readVal dbc).2.unity_latest = []
    ∧ (main_startup nodes readVal dbc).2.db.current_values = []
    ∧ (get_value_route
          (processEvents (main_startup nodes readVal dbc) evs).2 nm = none
        ↔ nm ∉ resolvedNames nodes evs)
    ∧ ((dictGet (processEvents (main_startup nodes readVal dbc)
            evs).2.db.current_values nm).isSome
        ↔ dbc = true ∧ nm ∈ resolvedNames nodes evs) := by
  have hseed := seedNodes_no_callbacks readVal nodes (init_opc nodes)
    (init_world dbc) rfl
  have hm2 : (main_startup nodes readVal dbc).2 = init_world dbc := hseed.1
  have hlat : (main_startup nodes readVal dbc).1.latest_values
      = (seedNodes readVal nodes (init_opc nodes)
          (init_world dbc)).1.latest_values := by
    cases dbc with
    | false => rfl
    | true => rfl
  have hcb : (main_startup nodes readVal dbc).1.value_callbacks
      = startup_callbacks dbc := by
    cases dbc with
    | false =>
      show (seedNodes readVal nodes (init_opc nodes)
          (init_world false)).1.value_callbacks ++ [on_value_update] = _
      rw [hseed.2.1]
      rfl
    | true =>
      show ((seedNodes readVal nodes (init_opc nodes)
            (init_world true)).1.value_callbacks ++ [db_update_callback])
          ++ [on_value_update] = _
      rw [hseed.2.1]
      rfl
  have hnodes : (main_startup nodes readVal dbc).1.nodes_to_monitor
      = nodes := by
    cases dbc with
    | false => exact hseed.2.2
    | true => exact hseed.2.2
  have hconn : (main_startup nodes readVal dbc).2.db.connected = dbc := by
    rw [hm2]
    rfl
  have hpe : processEvents (main_startup nodes readVal dbc) evs
      = processEvents ((main_startup nodes readVal dbc).1,
          (main_startup nodes readVal dbc).2) evs := rfl
  obtain ⟨g1, g2, g3⟩ := processEvents_caches nodes dbc evs
    (main_startup nodes readVal dbc).1 (main_startup nodes readVal dbc).2
    hnodes hcb hconn
  refine ⟨?_, by rw [hm2]; rfl, by rw [hm2]; rfl, ?_, ?_⟩
  · rw [hlat,
      seedNodes_isSome readVal nodes (init_opc nodes) (init_world dbc) nm]
    simp [init_opc, dictGet]
  · unfold get_value_route
    rw [hpe, ← Option.not_isSome_iff_eq_none]
    rw [g2 nm, hm2]
    simp [init_world, dictGet]
  · rw [hpe, g3 nm, hm2]
    simp [init_world, dictGet]

end Gateway
